import Mathlib

/-!
# Backlog estimation lambda (`lambda/main.go`)

A shallow embedding of the Go program: the request event, the three
collaborator calls (Redis `ZCARD`, ECS `DescribeServices`, CloudWatch
`PutMetricData`), the pure estimator and the `Handler` pipeline.

* `int64` values are integers, together with the predicate `InInt64`; the one
  arithmetic operation of the program, the `int64` quotient, wraps modulo
  `2 ^ 64` and faults on a zero divisor, as in Go.
* A Go `error` is an opaque message; `nil` is `none`.
* A run-time fault (Go `panic`) is the `error` side of `Except Panic`.
* Every function returns, next to its result, the list of effects it performed
  on the outside world, in program order.
-/

namespace Lambda

/-! ## Data model -/

/-- The trigger event, `type RedisEcsEvent struct`. -/
structure RedisEcsEvent where
  ClusterName : String
  RedisAddress : String
  ServiceName : String
  SortedSetName : String
  deriving DecidableEq, Repr

/-- A Go `error` value that is not `nil`. -/
structure GoError where
  msg : String
  deriving DecidableEq, Repr

/-- The run-time faults the program can raise. -/
inductive Panic where
  | indexOutOfRange (index length : Nat)
  | nilDereference
  | integerDivideByZero
  deriving DecidableEq, Repr

/-- The value `ecs.DescribeServicesInput` as the program fills it. -/
structure DescribeServicesInput where
  Cluster : Option String
  Services : List (Option String)
  deriving DecidableEq, Repr

/-- The part of `ecs.Service` the program reads; `RunningCount` is a `*int64`. -/
structure Service where
  RunningCount : Option Int
  deriving DecidableEq, Repr

/-- The part of `ecs.DescribeServicesOutput` the program reads, a `[]*Service`. -/
structure DescribeServicesOutput where
  Services : List (Option Service)
  deriving DecidableEq, Repr

/-- The value `cloudwatch.Dimension`. -/
structure Dimension where
  Name : Option String
  Value : Option String
  deriving DecidableEq, Repr

/-- The value `cloudwatch.MetricDatum`. `Value` is a `*float64`; the float is
represented by the real number it denotes, which for a converted `int64` is
an integer. -/
structure MetricDatum where
  MetricName : Option String
  Dimensions : List (Option Dimension)
  Value : Option Int
  deriving DecidableEq, Repr

/-- The value `cloudwatch.PutMetricDataInput`. -/
structure PutMetricDataInput where
  Namespace : Option String
  MetricData : List (Option MetricDatum)
  deriving DecidableEq, Repr

/-- What the program does to the outside world. -/
inductive Effect where
  | redisZCard (addr key : String)
  | ecsDescribeServices (input : DescribeServicesInput)
  | cloudwatchPutMetricData (input : PutMetricDataInput)
  | logPrintf (line : String)
  deriving DecidableEq, Repr

/-- The three collaborators, as the answers they give to the program's calls.
`ZCard addr key` is `redis.NewClient(addr).ZCard(key).Result()`. -/
structure Clients where
  ZCard : String → String → Int × Option GoError
  DescribeServices : DescribeServicesInput → DescribeServicesOutput × Option GoError
  PutMetricData : PutMetricDataInput → Option GoError

deriving instance DecidableEq for Except

/-- The outcome of running a function: its result, or the fault that stopped
it, and the effects performed up to that point. -/
structure Run (α : Type) where
  result : Except Panic α
  effects : List Effect
  deriving DecidableEq

/-! ## Machine arithmetic -/

/-- Membership in the range of `int64`. -/
def InInt64 (x : Int) : Prop := -(2 : Int) ^ 63 ≤ x ∧ x < (2 : Int) ^ 63

instance (x : Int) : Decidable (InInt64 x) :=
  inferInstanceAs (Decidable (-(2 : Int) ^ 63 ≤ x ∧ x < (2 : Int) ^ 63))

/-- Reduction of an integer to the `int64` that has the same low 64 bits. -/
def wrapInt64 (x : Int) : Int := (x + 2 ^ 63) % 2 ^ 64 - 2 ^ 63

/-- The Go quotient `a / b` on `int64`: truncated towards zero, wrapping on
overflow, and a run-time fault when `b` is zero. -/
def int64Div (a b : Int) : Except Panic Int :=
  if b = 0 then .error .integerDivideByZero else .ok (wrapInt64 (Int.tdiv a b))

/-- Bit length of a natural number below `2 ^ fuel`. -/
def bitLength : Nat → Nat → Nat
  | 0, _ => 0
  | fuel + 1, a => if a = 0 then 0 else bitLength fuel (a / 2) + 1

/-- Rounding of a natural number to 53 significant bits, to nearest, ties to
even: the value of the `float64` nearest to it. -/
def roundTo53 (a : Nat) : Nat :=
  let shift := bitLength 64 a - 53
  let q := a / 2 ^ shift
  let r := a % 2 ^ shift
  if 2 * r > 2 ^ shift ∨ (2 * r = 2 ^ shift ∧ q % 2 = 1) then (q + 1) * 2 ^ shift
  else q * 2 ^ shift

/-- The Go conversion `float64(x)` of an `int64`, as the real number the
resulting float denotes. -/
def float64 (x : Int) : Int :=
  if x < 0 then -(roundTo53 x.natAbs : Int) else (roundTo53 x.natAbs : Int)

/-- The helper `aws.String`: a pointer to the given string. -/
def awsString (v : String) : Option String := some v

/-- The helper `aws.Float64`: a pointer to the given float. -/
def awsFloat64 (v : Int) : Option Int := some v

/-- The verb `%d` of `log.Printf` on an `int64`. -/
def fmtInt (x : Int) : String := toString x

/-! ## The program -/

/-- The function `sortedSetLength`. -/
def sortedSetLength (c : Clients) (event : RedisEcsEvent) : Run (Int × Option GoError) :=
  let call := Effect.redisZCard event.RedisAddress event.SortedSetName
  match c.ZCard event.RedisAddress event.SortedSetName with
  | (_, some err) => ⟨.ok (0, some err), [call]⟩
  | (res, none) =>
    ⟨.ok (res, none),
      [call, .logPrintf ("Number of items in sorted-set " ++ event.SortedSetName ++ ": "
        ++ fmtInt res)]⟩

/-- The function `serviceRunningTasks`. -/
def serviceRunningTasks (c : Clients) (event : RedisEcsEvent) : Run (Int × Option GoError) :=
  let input : DescribeServicesInput :=
    { Cluster := awsString event.ClusterName
      Services := [awsString event.ServiceName] }
  let call := Effect.ecsDescribeServices input
  match c.DescribeServices input with
  | (_, some err) => ⟨.ok (0, some err), [call]⟩
  | (res, none) =>
    match res.Services with
    | [] => ⟨.error (.indexOutOfRange 0 0), [call]⟩
    | none :: _ => ⟨.error .nilDereference, [call]⟩
    | some svc :: _ =>
      match svc.RunningCount with
      | none => ⟨.error .nilDereference, [call]⟩
      | some runningCount =>
        ⟨.ok (runningCount, none),
          [call, .logPrintf ("Number of running tasks for service " ++ event.ServiceName
            ++ ": " ++ fmtInt runningCount)]⟩

/-- The function `estimateBacklog`. -/
def estimateBacklog (messages tasks : Int) : Run Int :=
  let quotient : Except Panic Int :=
    if tasks ≤ 1 then .ok messages else int64Div messages tasks
  match quotient with
  | .error p => ⟨.error p, []⟩
  | .ok backlog0 =>
    let backlog := if backlog0 < 1 then 1 else backlog0
    ⟨.ok backlog, [.logPrintf ("Estimated backlog per instance: " ++ fmtInt backlog)]⟩

/-- The request `putMetric` builds, `input` in the source. -/
def putMetricInput (backlog : Int) (event : RedisEcsEvent) : PutMetricDataInput :=
  { Namespace := awsString "ELASTICACHE_ECS"
    MetricData := [some
      { MetricName := awsString "RedisEcsServiceBacklog"
        Dimensions := [
          some { Name := awsString "ClusterName", Value := awsString event.ClusterName },
          some { Name := awsString "ServiceName", Value := awsString event.ServiceName },
          some { Name := awsString "SortedSetName", Value := awsString event.SortedSetName }]
        Value := awsFloat64 (float64 backlog) }] }

/-- The function `putMetric`. -/
def putMetric (c : Clients) (backlog : Int) (event : RedisEcsEvent) : Run (Option GoError) :=
  let input := putMetricInput backlog event
  ⟨.ok (c.PutMetricData input), [.cloudwatchPutMetricData input]⟩

/-- The function `Handler`. -/
def Handler (c : Clients) (event : RedisEcsEvent) : Run (Option GoError) :=
  match sortedSetLength c event with
  | ⟨.error p, e1⟩ => ⟨.error p, e1⟩
  | ⟨.ok (_, some err), e1⟩ => ⟨.ok (some err), e1⟩
  | ⟨.ok (messages, none), e1⟩ =>
    match serviceRunningTasks c event with
    | ⟨.error p, e2⟩ => ⟨.error p, e1 ++ e2⟩
    | ⟨.ok (_, some err), e2⟩ => ⟨.ok (some err), e1 ++ e2⟩
    | ⟨.ok (tasks, none), e2⟩ =>
      match estimateBacklog messages tasks with
      | ⟨.error p, e3⟩ => ⟨.error p, e1 ++ e2 ++ e3⟩
      | ⟨.ok backlog, e3⟩ =>
        match putMetric c backlog event with
        | ⟨.error p, e4⟩ => ⟨.error p, e1 ++ e2 ++ e3 ++ e4⟩
        | ⟨.ok err, e4⟩ => ⟨.ok err, e1 ++ e2 ++ e3 ++ e4⟩

/-! ## Observations on a run -/

/-- The metric submissions among a list of effects, in order. -/
def submissions : List Effect → List PutMetricDataInput
  | [] => []
  | .cloudwatchPutMetricData input :: es => input :: submissions es
  | _ :: es => submissions es

/-- The orchestrator queries among a list of effects, in order. -/
def serviceQueries : List Effect → List DescribeServicesInput
  | [] => []
  | .ecsDescribeServices input :: es => input :: serviceQueries es
  | _ :: es => serviceQueries es

/-- The values carried by a metric submission, one per datum. -/
def publishedValues (input : PutMetricDataInput) : List Int :=
  input.MetricData.filterMap (fun d => d.bind (fun m => m.Value))

/-! ## Sample inputs -/

/-- A request whose identifiers contain spaces, punctuation and non-ASCII letters. -/
def sampleEvent : RedisEcsEvent :=
  { ClusterName := "prod cluster/eu-west-1"
    RedisAddress := "redis.internal:6379"
    ServiceName := "wörker #1 (α)"
    SortedSetName := "jobs:high-priority?*" }

/-- Collaborators that give the same answers whatever they are asked. -/
def fixedClients (queue : Int × Option GoError)
    (fleet : DescribeServicesOutput × Option GoError) (publish : Option GoError) : Clients :=
  { ZCard := fun _ _ => queue
    DescribeServices := fun _ => fleet
    PutMetricData := fun _ => publish }

/-- An orchestrator answer reporting one service with the given running count. -/
def oneService (running : Int) : DescribeServicesOutput × Option GoError :=
  ({ Services := [some { RunningCount := some running }] }, none)

/-- An orchestrator answer, without error, that lists no service. -/
def noService : DescribeServicesOutput × Option GoError :=
  ({ Services := [] }, none)

/-- The queue store cannot be reached. -/
def queueDown : Int × Option GoError :=
  (0, some { msg := "dial tcp: connection refused" })

/-- The orchestrator rejects the query. -/
def fleetDown : DescribeServicesOutput × Option GoError :=
  ({ Services := [] }, some { msg := "ClusterNotFoundException" })

/-! ## Arithmetic lemmas -/

theorem wrapInt64_eq_self {x : Int} (h : InInt64 x) : wrapInt64 x = x := by
  unfold InInt64 at h
  unfold wrapInt64
  omega

/-- The truncated quotient by a positive divisor, through the floor quotient. -/
theorem tdiv_pos_divisor (m t : Int) (ht : 0 < t) :
    Int.tdiv m t = if 0 ≤ m then m / t else -((-m) / t) := by
  split
  · next h => exact Int.tdiv_eq_ediv h (le_of_lt ht)
  · next h =>
    have h1 : Int.tdiv (-m) t = (-m) / t := Int.tdiv_eq_ediv (by omega) (le_of_lt ht)
    rw [Int.neg_tdiv] at h1
    omega

theorem ediv_le_self_of_two_le {n t : Int} (hn : 0 ≤ n) (ht : 2 ≤ t) :
    0 ≤ n / t ∧ n / t ≤ n :=
  ⟨Int.ediv_nonneg hn (by omega), Int.ediv_le_self t hn⟩

theorem abs_tdiv_le (m t : Int) (ht : 2 ≤ t) : |Int.tdiv m t| ≤ |m| := by
  rw [tdiv_pos_divisor m t (by omega)]
  split
  · next h =>
    obtain ⟨h1, h2⟩ := ediv_le_self_of_two_le h ht
    rw [abs_of_nonneg h1, abs_of_nonneg h]; exact h2
  · next h =>
    obtain ⟨h1, h2⟩ := ediv_le_self_of_two_le (n := -m) (by omega) ht
    rw [abs_neg, abs_of_nonneg h1, abs_of_neg (by omega)]; exact h2

theorem inInt64_tdiv {m t : Int} (hm : InInt64 m) (ht : 2 ≤ t) : InInt64 (Int.tdiv m t) := by
  unfold InInt64 at hm ⊢
  rw [tdiv_pos_divisor m t (by omega)]
  split
  · next h =>
    obtain ⟨h1, h2⟩ := ediv_le_self_of_two_le h ht
    omega
  · next h =>
    obtain ⟨h1, h2⟩ := ediv_le_self_of_two_le (n := -m) (by omega) ht
    omega

theorem int64Div_eq_tdiv {m t : Int} (hm : InInt64 m) (ht : 2 ≤ t) :
    int64Div m t = .ok (Int.tdiv m t) := by
  unfold int64Div
  rw [if_neg (by omega), wrapInt64_eq_self (inInt64_tdiv hm ht)]

/-! ## The estimator, case by case -/

theorem estimateBacklog_result_of_le_one (m t : Int) (ht : t ≤ 1) :
    (estimateBacklog m t).result = .ok (max m 1) := by
  unfold estimateBacklog
  simp only [if_pos ht]
  congr 1
  split <;> omega

theorem estimateBacklog_result_of_two_le (m t : Int) (hm : InInt64 m) (ht : 2 ≤ t) :
    (estimateBacklog m t).result = .ok (max (Int.tdiv m t) 1) := by
  unfold estimateBacklog
  simp only [if_neg (show ¬ t ≤ 1 by omega), int64Div_eq_tdiv hm ht]
  congr 1
  split <;> omega

theorem floor_rat_div_eq_ediv (m t : Int) (ht : 0 < t) : ⌊(m : ℚ) / (t : ℚ)⌋ = m / t := by
  obtain ⟨d, rfl⟩ := Int.eq_ofNat_of_zero_le (le_of_lt ht)
  exact_mod_cast Rat.floor_intCast_div_natCast m d

/-! ## The conversion to `float64` -/

theorem bitLength_le_of_lt (fuel : Nat) : ∀ (k a : Nat), a < 2 ^ k → bitLength fuel a ≤ k := by
  induction fuel with
  | zero => intro k a _; simp [bitLength]
  | succ f ih =>
    intro k a h
    unfold bitLength
    split
    · exact Nat.zero_le _
    · next ha =>
      cases k with
      | zero => simp at h; exact absurd h ha
      | succ k =>
        have : a / 2 < 2 ^ k := by
          rw [Nat.pow_succ] at h
          omega
        have := ih k (a / 2) this
        omega

theorem two_pow_bitLength_pred_le (fuel : Nat) :
    ∀ a : Nat, a ≠ 0 → 2 ^ (bitLength fuel a - 1) ≤ a := by
  induction fuel with
  | zero => intro a ha; simp [bitLength]; omega
  | succ f ih =>
    intro a ha
    unfold bitLength
    rw [if_neg ha, Nat.add_sub_cancel]
    by_cases h2 : a / 2 = 0
    · have : bitLength f (a / 2) = 0 := by
        rw [h2]; cases f <;> simp [bitLength]
      rw [this]; simp; omega
    · have h := ih (a / 2) h2
      cases hb : bitLength f (a / 2) with
      | zero => simp; omega
      | succ b =>
        rw [hb, Nat.add_sub_cancel] at h
        rw [Nat.pow_succ]
        omega

theorem roundTo53_eq_self {a : Nat} (h : a < 2 ^ 53) : roundTo53 a = a := by
  have hs : bitLength 64 a - 53 = 0 := by
    have := bitLength_le_of_lt 64 53 a h
    omega
  simp [roundTo53, hs, Nat.mod_one]

theorem one_le_roundTo53 {a : Nat} (h : 1 ≤ a) : 1 ≤ roundTo53 a := by
  have hpow : 2 ^ (bitLength 64 a - 53) ≤ a :=
    le_trans (Nat.pow_le_pow_right (by decide) (by omega))
      (two_pow_bitLength_pred_le 64 a (by omega))
  have hpos : 0 < 2 ^ (bitLength 64 a - 53) := Nat.pow_pos (by decide)
  have hq : 1 ≤ a / 2 ^ (bitLength 64 a - 53) := (Nat.one_le_div_iff hpos).mpr hpow
  unfold roundTo53
  simp only
  split
  · exact Nat.mul_pos (by omega) hpos
  · exact Nat.mul_pos (by omega) hpos

theorem one_le_float64 {v : Int} (h : 1 ≤ v) : 1 ≤ float64 v := by
  unfold float64
  rw [if_neg (by omega)]
  have : 1 ≤ roundTo53 v.natAbs := one_le_roundTo53 (by omega)
  exact_mod_cast this

theorem float64_eq_self {v : Int} (h : |v| ≤ 2 ^ 53) : float64 v = v := by
  have hv := abs_le.mp h
  have key : roundTo53 v.natAbs = v.natAbs := by
    by_cases hlt : v.natAbs < 2 ^ 53
    · exact roundTo53_eq_self hlt
    · have : v.natAbs = 2 ^ 53 := by omega
      rw [this]; decide
  unfold float64
  rw [key]
  split <;> omega

/-! ## Order properties of the truncated quotient -/

theorem tdiv_le_tdiv_of_le {m₁ m₂ t : Int} (ht : 0 < t) (h : m₁ ≤ m₂) :
    Int.tdiv m₁ t ≤ Int.tdiv m₂ t := by
  rw [tdiv_pos_divisor m₁ t ht, tdiv_pos_divisor m₂ t ht]
  split <;> split
  · exact Int.ediv_le_ediv ht h
  · omega
  · next h1 h2 =>
    have a1 : 0 ≤ (-m₁) / t := Int.ediv_nonneg (by omega) (le_of_lt ht)
    have a2 : 0 ≤ m₂ / t := Int.ediv_nonneg h2 (le_of_lt ht)
    omega
  · have := Int.ediv_le_ediv ht (show -m₂ ≤ -m₁ by omega)
    omega

theorem ediv_le_ediv_of_divisor_le {m t₁ t₂ : Int} (hm : 0 ≤ m) (h1 : 0 < t₁) (h : t₁ ≤ t₂) :
    m / t₂ ≤ m / t₁ := by
  have hq : 0 ≤ m / t₂ := Int.ediv_nonneg hm (by omega)
  have hle : m / t₂ * t₂ ≤ m := Int.ediv_mul_le m (by omega)
  have hmul : m / t₂ * t₁ ≤ m / t₂ * t₂ := Int.mul_le_mul_of_nonneg_left h hq
  exact (Int.le_ediv_iff_mul_le h1).mpr (le_trans hmul hle)

theorem tdiv_le_of_two_le {m t : Int} (ht : 2 ≤ t) : Int.tdiv m t ≤ max m 1 := by
  rw [tdiv_pos_divisor m t (by omega)]
  split
  · next h =>
    have := (ediv_le_self_of_two_le h ht).2
    exact le_trans this (le_max_left _ _)
  · next h =>
    have := (ediv_le_self_of_two_le (n := -m) (by omega) ht).1
    have h1 : (1 : Int) ≤ max m 1 := le_max_right _ _
    omega

theorem tdiv_le_tdiv_of_divisor_le {m t₁ t₂ : Int} (h1 : 2 ≤ t₁) (h : t₁ ≤ t₂) :
    max (Int.tdiv m t₂) 1 ≤ max (Int.tdiv m t₁) 1 := by
  rw [tdiv_pos_divisor m t₁ (by omega), tdiv_pos_divisor m t₂ (by omega)]
  split
  · next hm =>
    exact max_le_max (ediv_le_ediv_of_divisor_le hm (by omega) h) (le_refl _)
  · next hm =>
    have a1 := (ediv_le_self_of_two_le (n := -m) (t := t₁) (by omega) h1).1
    have a2 := (ediv_le_self_of_two_le (n := -m) (t := t₂) (by omega) (by omega)).1
    rw [max_eq_right (by omega), max_eq_right (by omega)]

/-- The value `estimateBacklog` returns, for every `int64` pending count. -/
theorem estimateBacklog_result (m t : Int) (hm : InInt64 m) :
    (estimateBacklog m t).result
      = .ok (if t ≤ 1 then max m 1 else max (Int.tdiv m t) 1) := by
  split
  · next h => exact estimateBacklog_result_of_le_one m t h
  · next h => exact estimateBacklog_result_of_two_le m t hm (by omega)

/-- The estimator returns, and what it returns is at least 1, whatever the
integers it is given. -/
theorem estimateBacklog_returns_ge_one (m t : Int) :
    ∃ v, (estimateBacklog m t).result = .ok v ∧ 1 ≤ v := by
  unfold estimateBacklog int64Div
  by_cases h : t ≤ 1
  · simp only [if_pos h]
    exact ⟨_, rfl, by split <;> omega⟩
  · simp only [if_neg h, if_neg (show ¬ t = 0 by omega)]
    exact ⟨_, rfl, by split <;> omega⟩

/-! ## The pipeline, step by step -/

theorem submissions_append (xs ys : List Effect) :
    submissions (xs ++ ys) = submissions xs ++ submissions ys := by
  induction xs with
  | nil => rfl
  | cons x xs ih => cases x <;> simp [submissions, ih]

theorem serviceQueries_append (xs ys : List Effect) :
    serviceQueries (xs ++ ys) = serviceQueries xs ++ serviceQueries ys := by
  induction xs with
  | nil => rfl
  | cons x xs ih => cases x <;> simp [serviceQueries, ih]

theorem sortedSetLength_quiet (c : Clients) (event : RedisEcsEvent) :
    submissions (sortedSetLength c event).effects = []
      ∧ serviceQueries (sortedSetLength c event).effects = [] := by
  unfold sortedSetLength
  split <;> exact ⟨rfl, rfl⟩

theorem serviceRunningTasks_quiet (c : Clients) (event : RedisEcsEvent) :
    submissions (serviceRunningTasks c event).effects = [] := by
  unfold serviceRunningTasks
  simp only
  split
  · rfl
  · split
    · rfl
    · rfl
    · split <;> rfl

theorem estimateBacklog_quiet (m t : Int) :
    submissions (estimateBacklog m t).effects = [] := by
  unfold estimateBacklog
  simp only
  split <;> rfl

theorem Handler_of_queue_error {c : Clients} {event : RedisEcsEvent} {v : Int} {err : GoError}
    (h : (sortedSetLength c event).result = .ok (v, some err)) :
    Handler c event = ⟨.ok (some err), (sortedSetLength c event).effects⟩ := by
  unfold Handler
  cases hs : sortedSetLength c event with
  | mk r e1 =>
    rw [hs] at h
    simp only at h
    subst h
    rfl

theorem Handler_of_fleet_error {c : Clients} {event : RedisEcsEvent} {m v : Int}
    {err : GoError}
    (h1 : (sortedSetLength c event).result = .ok (m, none))
    (h2 : (serviceRunningTasks c event).result = .ok (v, some err)) :
    Handler c event = ⟨.ok (some err),
      (sortedSetLength c event).effects ++ (serviceRunningTasks c event).effects⟩ := by
  unfold Handler
  cases hs : sortedSetLength c event with
  | mk r e1 =>
    cases ht : serviceRunningTasks c event with
    | mk r2 e2 =>
      rw [hs] at h1
      rw [ht] at h2
      simp only at h1 h2
      subst h1 h2
      rfl

theorem Handler_of_fleet_fault {c : Clients} {event : RedisEcsEvent} {m : Int} {p : Panic}
    (h1 : (sortedSetLength c event).result = .ok (m, none))
    (h2 : (serviceRunningTasks c event).result = .error p) :
    Handler c event = ⟨.error p,
      (sortedSetLength c event).effects ++ (serviceRunningTasks c event).effects⟩ := by
  unfold Handler
  cases hs : sortedSetLength c event with
  | mk r e1 =>
    cases ht : serviceRunningTasks c event with
    | mk r2 e2 =>
      rw [hs] at h1
      rw [ht] at h2
      simp only at h1 h2
      subst h1 h2
      rfl

theorem Handler_of_observations {c : Clients} {event : RedisEcsEvent} {m t b : Int}
    (h1 : (sortedSetLength c event).result = .ok (m, none))
    (h2 : (serviceRunningTasks c event).result = .ok (t, none))
    (h3 : (estimateBacklog m t).result = .ok b) :
    Handler c event = ⟨.ok (c.PutMetricData (putMetricInput b event)),
      (sortedSetLength c event).effects ++ (serviceRunningTasks c event).effects
        ++ (estimateBacklog m t).effects
        ++ [.cloudwatchPutMetricData (putMetricInput b event)]⟩ := by
  unfold Handler
  cases hs : sortedSetLength c event with
  | mk r e1 =>
    cases ht : serviceRunningTasks c event with
    | mk r2 e2 =>
      cases he : estimateBacklog m t with
      | mk r3 e3 =>
        rw [hs] at h1
        rw [ht] at h2
        rw [he] at h3
        simp only at h1 h2 h3
        subst h1 h2 h3
        simp only [he, putMetric]

theorem sortedSetLength_returns (c : Clients) (event : RedisEcsEvent) :
    ∃ v oe, (sortedSetLength c event).result = .ok (v, oe) := by
  unfold sortedSetLength
  split
  · exact ⟨_, _, rfl⟩
  · exact ⟨_, _, rfl⟩

theorem sortedSetLength_effects_of_error {c : Clients} {event : RedisEcsEvent} {v : Int}
    {err : GoError} (h : (sortedSetLength c event).result = .ok (v, some err)) :
    (sortedSetLength c event).effects
      = [.redisZCard event.RedisAddress event.SortedSetName] := by
  unfold sortedSetLength at h ⊢
  split
  · rfl
  · next heq =>
    rw [heq] at h
    simp at h

/-- The metric submissions of a run of `Handler`: none, or the single one built
from a value the estimator returned. -/
theorem Handler_submissions (c : Clients) (event : RedisEcsEvent) :
    submissions (Handler c event).effects = []
      ∨ ∃ m t b, (estimateBacklog m t).result = .ok b ∧ 1 ≤ b
          ∧ submissions (Handler c event).effects = [putMetricInput b event] := by
  obtain ⟨v, oe, hs⟩ := sortedSetLength_returns c event
  cases oe with
  | some err =>
    left
    rw [Handler_of_queue_error hs]
    exact (sortedSetLength_quiet c event).1
  | none =>
    cases ht : (serviceRunningTasks c event).result with
    | error p =>
      left
      rw [Handler_of_fleet_fault hs ht]
      simp [submissions_append, (sortedSetLength_quiet c event).1,
        serviceRunningTasks_quiet c event]
    | ok r =>
      obtain ⟨t, oe2⟩ := r
      cases oe2 with
      | some err =>
        left
        rw [Handler_of_fleet_error hs ht]
        simp [submissions_append, (sortedSetLength_quiet c event).1,
          serviceRunningTasks_quiet c event]
      | none =>
        right
        obtain ⟨b, hb, hb1⟩ := estimateBacklog_returns_ge_one v t
        refine ⟨v, t, b, hb, hb1, ?_⟩
        rw [Handler_of_observations hs ht hb]
        simp [submissions_append, (sortedSetLength_quiet c event).1,
          serviceRunningTasks_quiet c event, estimateBacklog_quiet, submissions]

/-! ## The estimator -/

/-- Claim C1: with at most one running task and a non-negative pending count,
`estimateBacklog` returns the larger of the pending count and 1. -/
theorem estimateBacklog_at_most_one_task (messages tasks : Int)
    (htasks : tasks ≤ 1) (_hmessages : 0 ≤ messages) :
    (estimateBacklog messages tasks).result = .ok (max messages 1) :=
  estimateBacklog_result_of_le_one messages tasks htasks

/-- Scenario 2 of the specification, pending 5 and running 0, as an instance of C1. -/
theorem estimateBacklog_at_most_one_task_witness :
    ((0 : Int) ≤ 1 ∧ (0 : Int) ≤ 5)
      ∧ (estimateBacklog 5 0).result = .ok (max 5 1)
      ∧ (estimateBacklog 5 0).result = .ok 5 :=
  ⟨⟨by decide, by decide⟩,
    estimateBacklog_at_most_one_task 5 0 (by decide) (by decide), by decide⟩

/-- Claim C2: with more than one running task and a non-negative `int64`
pending count, `estimateBacklog` returns the larger of 1 and the floor of
pending over running, and the truncating `int64` quotient the code takes is
that floor. -/
theorem estimateBacklog_floor_quotient (messages tasks : Int)
    (htasks : 1 < tasks) (hmessages : 0 ≤ messages) (hrange : InInt64 messages) :
    (estimateBacklog messages tasks).result
        = .ok (max ⌊(messages : ℚ) / (tasks : ℚ)⌋ 1)
      ∧ int64Div messages tasks = .ok ⌊(messages : ℚ) / (tasks : ℚ)⌋ := by
  have hfloor : ⌊(messages : ℚ) / (tasks : ℚ)⌋ = Int.tdiv messages tasks := by
    rw [floor_rat_div_eq_ediv messages tasks (by omega)]
    exact (Int.tdiv_eq_ediv hmessages (by omega)).symm
  rw [hfloor]
  exact ⟨estimateBacklog_result_of_two_le messages tasks hrange (by omega),
    int64Div_eq_tdiv hrange (by omega)⟩

/-- Scenarios 1, 3 and 4 of the specification as instances of C2. -/
theorem estimateBacklog_floor_quotient_witness :
    ((1 : Int) < 2 ∧ (0 : Int) ≤ 7 ∧ InInt64 7)
      ∧ (estimateBacklog 7 2).result = .ok (max ⌊((7 : Int) : ℚ) / ((2 : Int) : ℚ)⌋ 1)
      ∧ (estimateBacklog 7 2).result = .ok 3
      ∧ (estimateBacklog 100 10).result = .ok 10
      ∧ (estimateBacklog 0 5).result = .ok 1 :=
  ⟨⟨by decide, by decide, by decide⟩,
    (estimateBacklog_floor_quotient 7 2 (by decide) (by decide) (by decide)).1,
    by decide, by decide, by decide⟩

/-- Claim C3: `estimateBacklog` never returns a value below 1, for non-negative
inputs as for any others, and every value `Handler` publishes is at least 1,
hence never 0. -/
theorem estimateBacklog_ge_one :
    (∀ messages tasks : Int,
        ∃ v, (estimateBacklog messages tasks).result = .ok v ∧ 1 ≤ v ∧ 1 ≤ float64 v)
      ∧ ∀ (c : Clients) (event : RedisEcsEvent),
          ∀ input ∈ submissions (Handler c event).effects,
            ∀ x ∈ publishedValues input, 1 ≤ x := by
  refine ⟨fun m t => ?_, fun c event input hin x hx => ?_⟩
  · obtain ⟨v, hv, h1⟩ := estimateBacklog_returns_ge_one m t
    exact ⟨v, hv, h1, one_le_float64 h1⟩
  · rcases Handler_submissions c event with h | ⟨m, t, b, _, hb1, h⟩
    · rw [h] at hin
      simp at hin
    · rw [h] at hin
      simp only [List.mem_singleton] at hin
      subst hin
      simp [publishedValues, putMetricInput, awsFloat64] at hx
      subst hx
      exact one_le_float64 hb1

/-- Scenario 3 of the specification, pending 0 and running 5, as an instance
of C3: the estimate is 1 and the one value published is 1. -/
theorem estimateBacklog_ge_one_witness :
    (putMetricInput 1 sampleEvent
          ∈ submissions (Handler (fixedClients (0, none) (oneService 5) none) sampleEvent).effects
        ∧ (1 : Int) ∈ publishedValues (putMetricInput 1 sampleEvent))
      ∧ (1 : Int) ≤ 1
      ∧ (estimateBacklog 0 5).result = .ok 1
      ∧ (submissions (Handler (fixedClients (0, none) (oneService 5) none)
          sampleEvent).effects).map publishedValues = [[1]] :=
  ⟨⟨by decide, by decide⟩,
    estimateBacklog_ge_one.2 (fixedClients (0, none) (oneService 5) none) sampleEvent
      (putMetricInput 1 sampleEvent) (by decide) 1 (by decide),
    by decide, by decide⟩

/-- Claim C9: `estimateBacklog` is total on `int64`: it returns, and what it
returns is an `int64`. A quotient by zero would fault, but with at most one
task no quotient is taken; with two tasks or more the quotient neither faults
nor wraps, and is no larger in magnitude than the pending count. -/
theorem estimateBacklog_total (messages tasks : Int) (hrange : InInt64 messages) :
    (∃ v, (estimateBacklog messages tasks).result = .ok v ∧ InInt64 v
        ∧ v = max (if tasks ≤ 1 then messages else Int.tdiv messages tasks) 1)
      ∧ int64Div messages 0 = .error .integerDivideByZero
      ∧ (tasks ≤ 1 → (estimateBacklog messages tasks).result = .ok (max messages 1))
      ∧ (2 ≤ tasks → int64Div messages tasks = .ok (Int.tdiv messages tasks)
          ∧ InInt64 (Int.tdiv messages tasks)
          ∧ |Int.tdiv messages tasks| ≤ |messages|) := by
  refine ⟨?_, rfl, fun h => ?_, fun h => ?_⟩
  · refine ⟨_, estimateBacklog_result messages tasks hrange, ?_, ?_⟩
    · split
      · unfold InInt64 at hrange ⊢
        rcases le_total messages 1 with h | h
        · rw [max_eq_right h]; omega
        · rw [max_eq_left h]; omega
      · next h =>
        have hq := inInt64_tdiv hrange (show 2 ≤ tasks by omega)
        unfold InInt64 at hq ⊢
        rcases le_total (Int.tdiv messages tasks) 1 with h' | h'
        · rw [max_eq_right h']; omega
        · rw [max_eq_left h']; omega
    · split <;> rfl
  · exact estimateBacklog_result_of_le_one messages tasks h
  · exact ⟨int64Div_eq_tdiv hrange h, inInt64_tdiv hrange h, abs_tdiv_le messages tasks h⟩

/-- Instances of C9 at the smallest `int64`: zero tasks, where a quotient
would fault, and two tasks; the one quotient of `int64` that wraps, by `-1`,
is never taken. -/
theorem estimateBacklog_total_witness :
    (InInt64 (-9223372036854775808) ∧ (0 : Int) ≤ 1 ∧ (2 : Int) ≤ 2)
      ∧ (estimateBacklog (-9223372036854775808) 0).result
          = .ok (max (-9223372036854775808) 1)
      ∧ (int64Div (-9223372036854775808) 2 = .ok (Int.tdiv (-9223372036854775808) 2)
          ∧ InInt64 (Int.tdiv (-9223372036854775808) 2)
          ∧ |Int.tdiv (-9223372036854775808) 2| ≤ |(-9223372036854775808 : Int)|)
      ∧ (estimateBacklog (-9223372036854775808) 0).result = .ok 1
      ∧ (estimateBacklog (-9223372036854775808) 2).result = .ok 1
      ∧ (estimateBacklog (-9223372036854775808) (-1)).result = .ok 1
      ∧ int64Div (-9223372036854775808) (-1) = .ok (-9223372036854775808) :=
  ⟨⟨by decide, by decide, by decide⟩,
    (estimateBacklog_total (-9223372036854775808) 0 (by decide)).2.2.1 (by decide),
    (estimateBacklog_total (-9223372036854775808) 2 (by decide)).2.2.2 (by decide),
    by decide, by decide, by decide, by decide⟩

/-- Claim C10: `estimateBacklog` is monotone on `int64`: it does not decrease
when the pending count grows, does not increase when the task count grows, and
never exceeds the larger of the pending count and 1. -/
theorem estimateBacklog_monotone :
    (∀ m₁ m₂ tasks : Int, InInt64 m₁ → InInt64 m₂ → m₁ ≤ m₂ →
        ∃ v₁ v₂, (estimateBacklog m₁ tasks).result = .ok v₁
          ∧ (estimateBacklog m₂ tasks).result = .ok v₂ ∧ v₁ ≤ v₂)
      ∧ (∀ messages t₁ t₂ : Int, InInt64 messages → t₁ ≤ t₂ →
        ∃ v₁ v₂, (estimateBacklog messages t₁).result = .ok v₁
          ∧ (estimateBacklog messages t₂).result = .ok v₂ ∧ v₂ ≤ v₁)
      ∧ (∀ messages tasks : Int, InInt64 messages →
        ∃ v, (estimateBacklog messages tasks).result = .ok v ∧ v ≤ max messages 1) := by
  refine ⟨fun m₁ m₂ t h₁ h₂ hle => ?_, fun m t₁ t₂ hm hle => ?_, fun m t hm => ?_⟩
  · refine ⟨_, _, estimateBacklog_result m₁ t h₁, estimateBacklog_result m₂ t h₂, ?_⟩
    split
    · exact max_le_max hle (le_refl _)
    · next h => exact max_le_max (tdiv_le_tdiv_of_le (by omega) hle) (le_refl _)
  · refine ⟨_, _, estimateBacklog_result m t₁ hm, estimateBacklog_result m t₂ hm, ?_⟩
    by_cases h2 : t₂ ≤ 1
    · rw [if_pos h2, if_pos (show t₁ ≤ 1 by omega)]
    · rw [if_neg h2]
      by_cases h1 : t₁ ≤ 1
      · rw [if_pos h1]
        exact max_le (tdiv_le_of_two_le (by omega)) (le_max_right _ _)
      · rw [if_neg h1]
        exact tdiv_le_tdiv_of_divisor_le (by omega) hle
  · refine ⟨_, estimateBacklog_result m t hm, ?_⟩
    split
    · exact le_refl _
    · next h => exact max_le (tdiv_le_of_two_le (by omega)) (le_max_right _ _)


/-- Instances of C10: pending 7 against 100 with two tasks, two tasks against
ten with pending 100, and the bound for pending 100 with ten tasks. -/
theorem estimateBacklog_monotone_witness :
    (InInt64 7 ∧ InInt64 100 ∧ (7 : Int) ≤ 100 ∧ (2 : Int) ≤ 10)
      ∧ (∃ v₁ v₂, (estimateBacklog 7 2).result = .ok v₁
          ∧ (estimateBacklog 100 2).result = .ok v₂ ∧ v₁ ≤ v₂)
      ∧ (∃ v₁ v₂, (estimateBacklog 100 2).result = .ok v₁
          ∧ (estimateBacklog 100 10).result = .ok v₂ ∧ v₂ ≤ v₁)
      ∧ (∃ v, (estimateBacklog 100 10).result = .ok v ∧ v ≤ max 100 1) :=
  ⟨⟨by decide, by decide, by decide, by decide⟩,
    estimateBacklog_monotone.1 7 100 2 (by decide) (by decide) (by decide),
    estimateBacklog_monotone.2.1 100 2 10 (by decide) (by decide),
    estimateBacklog_monotone.2.2 100 10 (by decide)⟩

/-! ## The pipeline -/

/-- Claim C4: when `sortedSetLength` fails, `Handler` returns that error, its
only effect is the one query to the queue store, the orchestrator is never
queried and no metric is submitted. -/
theorem Handler_queue_failure (c : Clients) (event : RedisEcsEvent) (v : Int) (err : GoError)
    (h : (sortedSetLength c event).result = .ok (v, some err)) :
    (Handler c event).result = .ok (some err)
      ∧ (Handler c event).effects = [.redisZCard event.RedisAddress event.SortedSetName]
      ∧ serviceQueries (Handler c event).effects = []
      ∧ submissions (Handler c event).effects = [] := by
  rw [Handler_of_queue_error h]
  refine ⟨rfl, sortedSetLength_effects_of_error h, ?_, ?_⟩
  · exact (sortedSetLength_quiet c event).2
  · exact (sortedSetLength_quiet c event).1

/-- Scenario 5 of the specification, the queue store unreachable, as an instance of C4. -/
theorem Handler_queue_failure_witness :
    (sortedSetLength (fixedClients queueDown (oneService 10) none) sampleEvent).result
        = .ok (0, some { msg := "dial tcp: connection refused" })
      ∧ (Handler (fixedClients queueDown (oneService 10) none) sampleEvent).result
        = .ok (some { msg := "dial tcp: connection refused" })
      ∧ (Handler (fixedClients queueDown (oneService 10) none) sampleEvent).effects
        = [.redisZCard sampleEvent.RedisAddress sampleEvent.SortedSetName]
      ∧ serviceQueries
          (Handler (fixedClients queueDown (oneService 10) none) sampleEvent).effects = []
      ∧ submissions
          (Handler (fixedClients queueDown (oneService 10) none) sampleEvent).effects = [] :=
  ⟨by decide,
    Handler_queue_failure (fixedClients queueDown (oneService 10) none) sampleEvent 0
      { msg := "dial tcp: connection refused" } (by decide)⟩

/-- Claim C5: when the queue is observed and `serviceRunningTasks` fails,
`Handler` returns that error and submits no metric; the same holds when
`serviceRunningTasks` stops on a run-time fault, which `Handler` passes on. -/
theorem Handler_fleet_failure (c : Clients) (event : RedisEcsEvent) (messages : Int)
    (h1 : (sortedSetLength c event).result = .ok (messages, none)) :
    (∀ (v : Int) (err : GoError), (serviceRunningTasks c event).result = .ok (v, some err) →
        (Handler c event).result = .ok (some err)
          ∧ submissions (Handler c event).effects = [])
      ∧ (∀ p : Panic, (serviceRunningTasks c event).result = .error p →
        (Handler c event).result = .error p
          ∧ submissions (Handler c event).effects = []) := by
  refine ⟨fun v err h2 => ?_, fun p h2 => ?_⟩
  · rw [Handler_of_fleet_error h1 h2]
    refine ⟨rfl, ?_⟩
    simp [submissions_append, (sortedSetLength_quiet c event).1,
      serviceRunningTasks_quiet c event]
  · rw [Handler_of_fleet_fault h1 h2]
    refine ⟨rfl, ?_⟩
    simp [submissions_append, (sortedSetLength_quiet c event).1,
      serviceRunningTasks_quiet c event]

/-- An instance of C5: the queue holds 100 items and the orchestrator rejects the query. -/
theorem Handler_fleet_failure_witness :
    ((sortedSetLength (fixedClients (100, none) fleetDown none) sampleEvent).result
        = .ok (100, none)
      ∧ (serviceRunningTasks (fixedClients (100, none) fleetDown none) sampleEvent).result
        = .ok (0, some { msg := "ClusterNotFoundException" }))
      ∧ (Handler (fixedClients (100, none) fleetDown none) sampleEvent).result
        = .ok (some { msg := "ClusterNotFoundException" })
      ∧ submissions (Handler (fixedClients (100, none) fleetDown none) sampleEvent).effects
        = [] :=
  ⟨⟨by decide, by decide⟩,
    (Handler_fleet_failure (fixedClients (100, none) fleetDown none) sampleEvent 100
      (by decide)).1 0 { msg := "ClusterNotFoundException" } (by decide)⟩

/-- Claim C6, as the code behaves: when the orchestrator answers without error
and lists no service, `serviceRunningTasks` returns no error at all but stops
on an index-out-of-range fault, and `Handler` stops with it. -/
theorem serviceRunningTasks_missing_service_faults :
    (serviceRunningTasks (fixedClients (100, none) noService none) sampleEvent).result
        = .error (.indexOutOfRange 0 0)
      ∧ (Handler (fixedClients (100, none) noService none) sampleEvent).result
        = .error (.indexOutOfRange 0 0) := by
  decide


/-- Claim C7, at a large backlog: the value submitted for the `int64`
9007199254740993 is 9007199254740992, the nearest `float64`, not the backlog. -/
theorem putMetric_value_is_rounded :
    InInt64 9007199254740993
      ∧ (submissions
          (putMetric (fixedClients (0, none) noService none) 9007199254740993
            sampleEvent).effects).map publishedValues = [[9007199254740992]]
      ∧ (9007199254740992 : Int) ≠ 9007199254740993 := by
  decide

/-- Claim C7, amended: for every request and backlog, `putMetric` makes the one
submission with namespace `ELASTICACHE_ECS`, metric name
`RedisEcsServiceBacklog`, the three dimensions `ClusterName`, `ServiceName`,
`SortedSetName` carrying the request's fields unchanged, and the value
`float64 backlog`, which is the backlog itself whenever its magnitude is at
most `2 ^ 53`; the function returns what the metrics system answers. -/
theorem putMetric_submission (c : Clients) (backlog : Int) (event : RedisEcsEvent) :
    (putMetric c backlog event).effects
        = [.cloudwatchPutMetricData
            { Namespace := some "ELASTICACHE_ECS"
              MetricData := [some
                { MetricName := some "RedisEcsServiceBacklog"
                  Dimensions := [
                    some { Name := some "ClusterName", Value := some event.ClusterName },
                    some { Name := some "ServiceName", Value := some event.ServiceName },
                    some { Name := some "SortedSetName",
                           Value := some event.SortedSetName }]
                  Value := some (float64 backlog) }] }]
      ∧ (putMetric c backlog event).result
        = .ok (c.PutMetricData (putMetricInput backlog event))
      ∧ (-(2 : Int) ^ 53 ≤ backlog ∧ backlog ≤ 2 ^ 53 → float64 backlog = backlog) :=
  ⟨rfl, rfl, fun h => float64_eq_self (abs_le.mpr h)⟩

/-- An instance of C7: backlog 10 for a request with special characters. -/
theorem putMetric_submission_witness :
    (-(2 : Int) ^ 53 ≤ 10 ∧ (10 : Int) ≤ 2 ^ 53)
      ∧ float64 10 = 10
      ∧ (submissions
          (putMetric (fixedClients (0, none) noService none) 10 sampleEvent).effects).map
            publishedValues = [[10]] :=
  ⟨by decide,
    (putMetric_submission (fixedClients (0, none) noService none) 10 sampleEvent).2.2
      (by decide),
    by decide⟩

/-- Claim C8, at a large pending count: with 9007199254740993 pending items
and one running task the estimate is 9007199254740993 and the value submitted
is 9007199254740992. -/
theorem Handler_value_is_rounded :
    (sortedSetLength (fixedClients (9007199254740993, none) (oneService 1) none)
        sampleEvent).result = .ok (9007199254740993, none)
      ∧ (serviceRunningTasks (fixedClients (9007199254740993, none) (oneService 1) none)
        sampleEvent).result = .ok (1, none)
      ∧ (estimateBacklog 9007199254740993 1).result = .ok 9007199254740993
      ∧ (submissions
          (Handler (fixedClients (9007199254740993, none) (oneService 1) none)
            sampleEvent).effects).map publishedValues = [[9007199254740992]] := by
  decide

/-- Claim C8, amended: when both observers succeed with `messages` and `tasks`,
`Handler` makes exactly one metric submission, built by `putMetric` from
`estimateBacklog messages tasks`; its value is the `float64` of that estimate,
the estimate itself whenever it is at most `2 ^ 53`; and `Handler` returns what
the submission returns. -/
theorem Handler_publishes_estimate (c : Clients) (event : RedisEcsEvent)
    (messages tasks : Int)
    (h1 : (sortedSetLength c event).result = .ok (messages, none))
    (h2 : (serviceRunningTasks c event).result = .ok (tasks, none)) :
    ∃ backlog, (estimateBacklog messages tasks).result = .ok backlog
      ∧ submissions (Handler c event).effects = [putMetricInput backlog event]
      ∧ publishedValues (putMetricInput backlog event) = [float64 backlog]
      ∧ (backlog ≤ 2 ^ 53 → float64 backlog = backlog)
      ∧ (Handler c event).result = .ok (c.PutMetricData (putMetricInput backlog event))
      ∧ (Handler c event).result = (putMetric c backlog event).result := by
  obtain ⟨b, hb, hb1⟩ := estimateBacklog_returns_ge_one messages tasks
  refine ⟨b, hb, ?_, rfl, fun hle => ?_, ?_, ?_⟩
  · rw [Handler_of_observations h1 h2 hb]
    simp [submissions_append, (sortedSetLength_quiet c event).1,
      serviceRunningTasks_quiet c event, estimateBacklog_quiet, submissions]
  · exact float64_eq_self (abs_le.mpr ⟨by omega, hle⟩)
  · rw [Handler_of_observations h1 h2 hb]
  · rw [Handler_of_observations h1 h2 hb]
    rfl

/-- Scenario 1 of the specification, pending 100 and running 10, as an instance
of C8: one submission, of value 10, and no error. -/
theorem Handler_publishes_estimate_witness :
    ((sortedSetLength (fixedClients (100, none) (oneService 10) none) sampleEvent).result
        = .ok (100, none)
      ∧ (serviceRunningTasks (fixedClients (100, none) (oneService 10) none)
        sampleEvent).result = .ok (10, none))
      ∧ (∃ backlog, (estimateBacklog 100 10).result = .ok backlog
        ∧ submissions (Handler (fixedClients (100, none) (oneService 10) none)
            sampleEvent).effects = [putMetricInput backlog sampleEvent]
        ∧ publishedValues (putMetricInput backlog sampleEvent) = [float64 backlog]
        ∧ (backlog ≤ 2 ^ 53 → float64 backlog = backlog)
        ∧ (Handler (fixedClients (100, none) (oneService 10) none) sampleEvent).result
          = .ok ((fixedClients (100, none) (oneService 10) none).PutMetricData
              (putMetricInput backlog sampleEvent))
        ∧ (Handler (fixedClients (100, none) (oneService 10) none) sampleEvent).result
          = (putMetric (fixedClients (100, none) (oneService 10) none) backlog
              sampleEvent).result)
      ∧ (submissions (Handler (fixedClients (100, none) (oneService 10) none)
          sampleEvent).effects).map publishedValues = [[10]]
      ∧ (Handler (fixedClients (100, none) (oneService 10) none) sampleEvent).result
        = .ok none :=
  ⟨⟨by decide, by decide⟩,
    Handler_publishes_estimate (fixedClients (100, none) (oneService 10) none) sampleEvent
      100 10 (by decide) (by decide),
    by decide, by decide⟩

end Lambda
